import Mathlib

/-!
Verification of the recursive-version-control-system core against its
specification.  The Go source is shallowly embedded: pure logic becomes Lean
functions, storage and helper-process interaction become explicit environment
records of (possibly failing) functions, and every observable side effect
(objects stored, index updates, helper invocations) is returned explicitly.
-/

namespace RVCS

/-- Decidable equality for `Except`, used to evaluate embedded operations on
concrete inputs. -/
instance {ε α : Type} [DecidableEq ε] [DecidableEq α] : DecidableEq (Except ε α) := fun x y =>
  match x, y with
  | .ok a, .ok b =>
    if h : a = b then .isTrue (by rw [h]) else .isFalse (by intro he; cases he; exact h rfl)
  | .error a, .error b =>
    if h : a = b then .isTrue (by rw [h]) else .isFalse (by intro he; cases he; exact h rfl)
  | .ok _, .error _ => .isFalse (by intro h; cases h)
  | .error _, .ok _ => .isFalse (by intro h; cases h)

/-- Models `snapshot.Hash`: a typed identifier `<algo>:<hex>`.  Two hashes are
equal iff both components match (spec §3); the Go `*Hash` nil pointer is
modelled as `Option Hash`. -/
structure Hash where
  algo : String
  hex : String
deriving DecidableEq, Repr

/-- Modelled from the spec: the textual form of a hash is `<algo>:<hex>`
(spec §6, `Hash.String` is not part of the provided source). -/
def hashString (h : Hash) : String := h.algo ++ ":" ++ h.hex

/-- Models `snapshot.Path`: a filesystem path or a name component in a Tree. -/
abbrev Path := String

/-- Modelled from the spec: `Path.Join` concatenates name components using
forward slashes (spec §4.A; `Path.Join` is not part of the provided source). -/
def pathJoin (p c : Path) : Path := p ++ "/" ++ c

/-- Models `snapshot.File`: mode line, contents hash, parent snapshot list
(spec §3).  The Go `Contents *Hash` may be nil, hence `Option Hash`. -/
structure File where
  mode : String
  contents : Option Hash
  parents : List Hash
deriving DecidableEq, Repr

/-- Modelled from the spec: the mode line is Go's `os.FileMode.String()`, whose
first byte is `d` for a directory (spec §3; `File.IsDir` is not part of the
provided source). -/
def File.isDir (f : File) : Bool :=
  match f.mode.data with
  | 'd' :: _ => true
  | _ => false

/-- Modelled from the spec: the mode line's first byte is `L` for a symbolic
link (spec §3; `File.IsLink` is not part of the provided source). -/
def File.isLink (f : File) : Bool :=
  match f.mode.data with
  | 'L' :: _ => true
  | _ => false

/-- Models `snapshot.Tree`: a finite mapping from single-component names to
child snapshot hashes (a Go `map[Path]*Hash`), represented as an association
list with (in all reachable states) pairwise distinct keys. -/
abbrev Tree := List (Path × Hash)

/-- Map access `t[p]` on a `Tree`; a missing key yields the nil hash. -/
def treeLookup : Tree → Path → Option Hash
  | [], _ => none
  | (k, h) :: rest, p => if k = p then some h else treeLookup rest p

/-! Byte-wise ordering on names, used by the canonical Tree serialization
(spec §4.C: entries sorted ascending by name under byte-wise comparison). -/

/-- Lexicographic (byte-wise) `≤` on character lists. -/
def charListLe : List Char → List Char → Bool
  | [], _ => true
  | _ :: _, [] => false
  | a :: as, b :: bs =>
    if a < b then true
    else if b < a then false
    else charListLe as bs

/-- Lexicographic (byte-wise) `<` on character lists. -/
def charListLt : List Char → List Char → Bool
  | [], [] => false
  | [], _ :: _ => true
  | _ :: _, [] => false
  | a :: as, b :: bs =>
    if a < b then true
    else if b < a then false
    else charListLt as bs

/-- Tree entries are ordered by name, byte-wise. -/
def entryLe (a b : Path × Hash) : Prop := charListLe a.1.data b.1.data = true

/-- Strict version of `entryLe`, used to exploit key distinctness. -/
def entryLt (a b : Path × Hash) : Prop := charListLt a.1.data b.1.data = true

instance : DecidableRel entryLe := fun a b => by unfold entryLe; infer_instance

instance : DecidableRel entryLt := fun a b => by unfold entryLt; infer_instance

/-- Modelled from the spec: canonical `Tree` serialization, one line
`<name>\t<child_hash>\n` per entry, entries sorted ascending by name
(spec §4.C; `Tree.String` is not part of the provided source). -/
def treeString (t : Tree) : String :=
  String.join ((List.insertionSort entryLe t).map
    (fun e => e.1 ++ "\t" ++ hashString e.2 ++ "\n"))

/-- Whitespace recognizer used when trimming helper output. -/
def isSpaceChar (c : Char) : Bool :=
  c = ' ' || c = '\n' || c = '\t' || c = '\r'

/-- Drops leading and trailing whitespace from a character list. -/
def trimChars (l : List Char) : List Char :=
  ((l.dropWhile isSpaceChar).reverse.dropWhile isSpaceChar).reverse

/-- Splits a character list at the first colon, if any. -/
def splitColon : List Char → Option (List Char × List Char)
  | [] => none
  | c :: rest =>
    if c = ':' then some ([], rest)
    else
      match splitColon rest with
      | some (a, b) => some (c :: a, b)
      | none => none

/-- Modelled from the spec: `snapshot.ParseHash` reads `<algo>:<hex>`,
trimming surrounding whitespace (a trailing newline in helper output is
ignored) and rejecting unknown algorithms; the only mandated algorithm is
SHA-256 (spec §3, §6; `ParseHash` is not part of the provided source). -/
def parseHash (s : String) : Except String Hash :=
  let t := trimChars s.data
  match splitColon t with
  | none => .error ("invalid hash: " ++ String.mk t)
  | some (fn, hex) =>
    if String.mk fn = "sha256" then .ok ⟨String.mk fn, String.mk hex⟩
    else .error ("unsupported hash function: " ++ String.mk fn)

/-- Models `snapshot.Identity`: a string `<namespace>::<contents>`, split at
the first `::`; `Algorithm()` yields the namespace, `Contents()` the rest
(spec §3, §4.G; the `Identity` type is not part of the provided source). -/
structure Identity where
  ns : String
  contents : String
deriving DecidableEq, Repr

/-- Modelled from the spec: `Identity.String` re-joins namespace and contents
with `::`. -/
def idString (id : Identity) : String := id.ns ++ "::" ++ id.contents

/-! ## Snapshotter (snapshot/snapshot.go)

The `Storage` interface calls made while snapshotting a single path are
modelled by an environment record: each field is the outcome the store
produces for the one path being snapshotted.  `os.FileInfo` is abstracted to
the data the source actually consumes (mode line, mtime); `io.Reader`
contents become a byte string. -/

/-- Outcome of `Storage.FindSnapshot` for the path being snapshotted.  The Go
call returns `(*Hash, *File, error)`; a missing snapshot surfaces as an error
satisfying `os.IsNotExist`. -/
inductive FindRes where
  | found (h : Hash) (f : File)
  | notExist
  | err (msg : String)
deriving DecidableEq, Repr

/-- Environment for snapshotting one path: the store's responses and the
mtime observed by the post-read `os.Lstat` (`none` models an Lstat error). -/
structure SnapEnv where
  findSnapshot : FindRes
  storeSnapshotRes : File → Except String Hash
  storeObject : String → Except String Hash
  pathInfoMatchesCache : Bool
  postLstatMtime : Option Int

/-- Embeds `snapshotFileMetadata` (snapshot.go lines 425-447).  The returned
list records the `File` records passed to `StoreSnapshot` (the observable
"a new File object was stored" effect).  The `modeLine` argument stands for
`info.Mode().String()`. -/
def snapshotFileMetadata (env : SnapEnv) (p : Path) (modeLine : String)
    (contentsHash : Option Hash) : (Except String (Hash × File)) × List File :=
  match env.findSnapshot with
  | .err m => (.error ("failure looking up the previous file snapshot: " ++ m), [])
  | .found prevFileHash prev =>
    if prev.mode = modeLine ∧ prev.contents = contentsHash then
      (.ok (prevFileHash, prev), [])
    else
      let f : File := ⟨modeLine, contentsHash, [prevFileHash]⟩
      (match env.storeSnapshotRes f with
       | .error m => .error (s!"failure saving the latest file metadata for \"{p}\": {m}")
       | .ok h => .ok (h, f), [f])
  | .notExist =>
    let f : File := ⟨modeLine, contentsHash, []⟩
    (match env.storeSnapshotRes f with
     | .error m => .error (s!"failure saving the latest file metadata for \"{p}\": {m}")
     | .ok h => .ok (h, f), [f])

/-- Embeds `readCached` (snapshot.go lines 449-458): a cache fast-path hit
requires `PathInfoMatchesCache` and a successful `FindSnapshot`. -/
def readCached (env : SnapEnv) : Option (Hash × File) :=
  if env.pathInfoMatchesCache = false then none
  else
    match env.findSnapshot with
    | .found h f => some (h, f)
    | _ => none

/-- Go's `time.Time.Truncate(time.Second)` on an instant measured in integer
nanoseconds: round down to a whole second. -/
def truncSec (t : Int) : Int := 1000000000 * Int.fdiv t 1000000000

/-- Embeds the deferred cache-guard of `snapshotRegularFile` (snapshot.go
lines 468-490): decides whether `CachePathInfo` is called, given the snapshot
outcome, the fresh `os.Lstat` mtime, the pre-read mtime (`info.ModTime()`),
and the truncated start time. -/
def cacheDecision (res : Except String (Hash × File)) (postMtime : Option Int)
    (preMtime : Int) (startTimeSec : Int) : Bool :=
  match res with
  | .error _ => false
  | .ok _ =>
    match postMtime with
    | none => false
    | some latest =>
      if ¬(latest = preMtime) then false
      else if ¬(latest < startTimeSec - 1000000000) then false
      else true

/-- Embeds `snapshotRegularFile` (snapshot.go lines 463-496).  `now` is the
instant `timeNow()` returns, in nanoseconds.  Output: the result, the `File`
records passed to `StoreSnapshot`, and whether `CachePathInfo` was called. -/
def snapshotRegularFile (env : SnapEnv) (p : Path) (modeLine : String)
    (contents : String) (preMtime : Int) (now : Int) :
    (Except String (Hash × File)) × List File × Bool :=
  let startTimeSec := truncSec now
  match readCached env with
  | some (h, f) => (.ok (h, f), [], false)
  | none =>
    match env.storeObject contents with
    | .error m => (.error ("failure storing an object: " ++ m), [], false)
    | .ok h =>
      let r := snapshotFileMetadata env p modeLine (some h)
      (r.1, r.2, cacheDecision r.1 env.postLstatMtime preMtime startTimeSec)

/-- Embeds `snapshotDirectory` (snapshot.go lines 498-517).  The directory
walk of lines 499-513 (enumerating entries and recursing via `Current` on the
real filesystem) is abstracted into the assembled `childHashes` argument.
Line 515 stores the serialized tree but the source discards the returned
`err`, so a store failure leaves the Go `contentsHash` nil (`none`) and
execution proceeds to `snapshotFileMetadata`. -/
def snapshotDirectory (env : SnapEnv) (p : Path) (modeLine : String)
    (childHashes : Tree) : (Except String (Hash × File)) × List File :=
  let contentsJson := treeString childHashes
  let contentsHash : Option Hash :=
    match env.storeObject contentsJson with
    | .ok h => some h
    | .error _ => none
  snapshotFileMetadata env p modeLine contentsHash

/-! ## Publisher (publish/sign.go, publish/pull.go)

Helper executables are opaque external processes.  One helper invocation is
modelled by the bytes it writes to stdout, its exit status, and whether
`exec.Cmd.Start` (or constructing the stdout pipe) failed.  Crucially, the
exit status is part of the model but — mirroring the source, which never
calls `Wait` on the command — it is never consulted by the embedded code. -/

/-- One helper-process run: stdout bytes read from the pipe, the process's
exit status, and a `Start`/pipe failure. -/
structure HelperRun where
  startErr : Option String
  stdout : String
  exitCode : Nat
deriving DecidableEq, Repr

/-- A helper command invocation that actually started: executable name and
argument vector. -/
structure CmdInvocation where
  cmd : String
  args : List String
deriving DecidableEq, Repr

/-- Models `config.Mirror` together with the behaviour of the one pull-helper
process spawned for it: the URL (`none` models a nil `m.URL`), the configured
helper flags, and the helper run. -/
structure MirrorURL where
  scheme : String
  full : String
deriving DecidableEq, Repr

structure Mirror where
  url : Option MirrorURL
  helperFlags : List String
  run : HelperRun
deriving DecidableEq, Repr

/-- Textual form of a nullable hash (`(*Hash).String()`; nil prints empty). -/
def optHashString : Option Hash → String
  | none => ""
  | some h => hashString h

/-- Display form of a `*config.Mirror` used in error messages. -/
def mirrorDisplay : Option Mirror → String
  | none => ""
  | some m =>
    match m.url with
    | some u => u.full
    | none => ""

/-- Environment for `Sign`: the sign-helper run and the
`UpdateSignatureForIdentity` outcome. -/
structure SignEnv where
  run : HelperRun
  update : Hash → Except String Unit

/-- Embeds `Sign` (sign.go lines 29-61).  Output: the result, the helper
invocation that was started (if any), and the hash written to the identity
index (if the index was updated).  Note that the argument vector is
`[id.Contents(), h.String()]` plus, only when a previous signature exists,
its textual form — and that `run.exitCode` is never examined (the source
never calls `Wait`). -/
def Sign (env : SignEnv) (id : Option Identity) (h : Option Hash)
    (prevSignature : Option Hash) :
    (Except String Hash) × Option CmdInvocation × Option Hash :=
  match id with
  | none => (.error "identity must not be nil", none, none)
  | some id =>
    match h with
    | none => (.error "cannot sign a nil hash", none, none)
    | some h =>
      let helperCommand := "rvcs-sign-" ++ id.ns
      let args := [id.contents, hashString h] ++
        (match prevSignature with
         | some p => [hashString p]
         | none => [])
      match env.run.startErr with
      | some m =>
        (.error (s!"failure running the sign helper \"{helperCommand}\": {m}"), none, none)
      | none =>
        match parseHash env.run.stdout with
        | .error m =>
          (.error (s!"failure parsing the stdout of the sign helper \"{helperCommand}\": {m}"),
           some ⟨helperCommand, args⟩, none)
        | .ok hsig =>
          match env.update hsig with
          | .error m =>
            (.error (s!"failure updating the latest snapshot for \"{idString id}\" to \"{hashString hsig}\": {m}"),
             some ⟨helperCommand, args⟩, none)
          | .ok _ => (.ok hsig, some ⟨helperCommand, args⟩, some hsig)

/-- Embeds `pullFrom` (pull.go lines 29-56).  A nil mirror or nil mirror URL
returns `prev` without spawning anything.  Otherwise the helper
`rvcs-pull-<scheme>` is invoked with the configured flags, the full identity
string and (when non-nil) the previous signature; its stdout is parsed as a
hash.  The exit status is never examined (the source never calls `Wait`). -/
def pullFrom (m : Option Mirror) (id : Identity) (prev : Option Hash) :
    (Except String (Option Hash)) × Option CmdInvocation :=
  match m with
  | none => (.ok prev, none)
  | some mm =>
    match mm.url with
    | none => (.ok prev, none)
    | some u =>
      let helperCommand := "rvcs-pull-" ++ u.scheme
      let args := mm.helperFlags ++ [idString id] ++
        (match prev with
         | some p => [hashString p]
         | none => [])
      match mm.run.startErr with
      | some m =>
        (.error (s!"failure running the pull helper \"{helperCommand}\": {m}"), none)
      | none =>
        match parseHash mm.run.stdout with
        | .error m =>
          (.error (s!"failure parsing the stdout of the pull helper \"{helperCommand}\": {m}"),
           some ⟨helperCommand, args⟩)
        | .ok h => (.ok (some h), some ⟨helperCommand, args⟩)

/-- Environment for `Pull`: the identity index lookup, the `Verify` helper
(modelled from the spec §4.H: `Verify(id, sig_hash) → signed_snapshot_hash`,
nullable; `verify.go` is not part of the provided source), and the
`UpdateSignatureForIdentity` outcome. -/
structure PullEnv where
  latestSig : Except String (Option Hash)
  verify : Option Hash → Except String (Option Hash)
  update : Option Hash → Except String Unit

/-- Modelled from the spec: per-identity pull-mirror configuration
(`config.Settings` is not part of the provided source; spec §4.H step 2:
identity-specific pull mirrors, then additional pull mirrors). -/
structure IdentityConfig where
  name : String
  pullMirrors : List (Option Mirror)

structure Settings where
  identities : List IdentityConfig
  additionalPullMirrors : List (Option Mirror)

/-- Embeds `pullFromAndVerify` (pull.go lines 58-71): pull, short-circuit
when the mirror returned the previous signature, otherwise verify the new
signature, failing the whole pull on a verification failure. -/
def pullFromAndVerify (env : PullEnv) (m : Option Mirror) (id : Identity)
    (prevSignature prevSigned : Option Hash) :
    Except String (Option Hash × Option Hash) :=
  match (pullFrom m id prevSignature).1 with
  | .error e =>
    .error (s!"failure pulling the latest snapshot for \"{idString id}\" from \"{mirrorDisplay m}\": {e}")
  | .ok signature =>
    if signature = prevSignature then .ok (prevSignature, prevSigned)
    else
      match env.verify signature with
      | .error e =>
        .error (s!"failure verifying the signature for \"{idString id}\" from \"{mirrorDisplay m}\": {e}")
      | .ok signed => .ok (signature, signed)

/-- The fold of `pullFromAndVerify` over one mirror list, wrapping each
failure exactly as `Pull`'s loops do (pull.go lines 85-88 and 93-96). -/
def pullMirrorList (env : PullEnv) (id : Identity) :
    List (Option Mirror) → Option Hash × Option Hash →
    Except String (Option Hash × Option Hash)
  | [], acc => .ok acc
  | m :: rest, acc =>
    match pullFromAndVerify env m id acc.1 acc.2 with
    | .error e =>
      .error (s!"failure pulling the latest snapshot for \"{idString id}\" from \"{mirrorDisplay m}\": {e}")
    | .ok acc' => pullMirrorList env id rest acc'

/-- The loop over `settings.Identities` (pull.go lines 82-91): mirrors of
every identity setting whose name matches are pulled in order. -/
def pullIdentityLoop (env : PullEnv) (id : Identity) :
    List IdentityConfig → Option Hash × Option Hash →
    Except String (Option Hash × Option Hash)
  | [], acc => .ok acc
  | c :: rest, acc =>
    if c.name = idString id then
      match pullMirrorList env id c.pullMirrors acc with
      | .error e => .error e
      | .ok acc' => pullIdentityLoop env id rest acc'
    else pullIdentityLoop env id rest acc

/-- Embeds `Pull` (pull.go lines 73-102).  Output: the `(signature, signed)`
result, and `some v` when `UpdateSignatureForIdentity` successfully wrote
`v` to the identity index (`none` when the index was left unchanged). -/
def Pull (env : PullEnv) (settings : Settings) (id : Identity) :
    (Except String (Option Hash × Option Hash)) × Option (Option Hash) :=
  match env.latestSig with
  | .error e =>
    (.error (s!"failure looking up the previous signature for \"{idString id}\": {e}"), none)
  | .ok sig0 =>
    match env.verify sig0 with
    | .error e =>
      (.error (s!"failure verifying the previous signature for \"{idString id}\": {e}"), none)
    | .ok signed0 =>
      match pullIdentityLoop env id settings.identities (sig0, signed0) with
      | .error e => (.error e, none)
      | .ok acc1 =>
        match pullMirrorList env id settings.additionalPullMirrors acc1 with
        | .error e => (.error e, none)
        | .ok acc2 =>
          match env.update acc2.1 with
          | .error e =>
            (.error (s!"failure updating the latest snapshot for \"{idString id}\" to \"{optHashString acc2.1}\": {e}"), none)
          | .ok _ => (.ok acc2, some acc2.1)

/-! ## Merger (merge/merge.go)

`mergeWithBase` reads snapshots and trees through the store and recurses over
directory children.  The store is an environment of functions; the Go
recursion, which terminates because the snapshot DAG is finite, is embedded
with an explicit fuel argument.  Go iterates the union of child names with a
`for … range` over a `map`, whose order is unspecified: that order is the
environment's `iterOrder` function, applied to the deduplicated union of the
two trees' key lists. -/

/-- Result of `mergeWithBase`: the Go pair `(*snapshot.Hash, error)`. -/
inductive MergeRes where
  | ok (h : Option Hash)
  | err (msg : String)
deriving DecidableEq, Repr

/-- Store and process environment for a merge.  `readLog` models
`log.ReadLog(ctx, s, h, -1)` as the list of ancestor entry hashes (modelled
from the spec §4.E; `log.ReadLog` is not part of the provided source);
`fileString` models the canonical `File` serialization (spec §4.C, abstract
here since no claim depends on its exact bytes); `helper` models
`mergeWithHelper` (§4.F.1), whose body shells out to an external merge
process. -/
structure MergeEnv where
  readLog : Hash → Except String (List Hash)
  readSnapshot : Hash → Except String File
  listDir : Hash → File → Except String Tree
  storeObject : String → Except String Hash
  fileString : File → String
  iterOrder : List Path → List Path
  helper : Path → String → Option Hash → Hash → Hash → MergeRes

/-- Embeds `IsAncestor` (merge.go lines 32-48): the nil snapshot is an
ancestor of everything; otherwise `base` must appear in the log of `h`. -/
def IsAncestor (env : MergeEnv) (base : Option Hash) (h : Hash) :
    Except String Bool :=
  match base with
  | none => .ok true
  | some b =>
    match env.readLog h with
    | .error e => .error (s!"failure reading the log for \"{hashString h}\": {e}")
    | .ok l => .ok (decide (b ∈ l))

/-- Error text of merge.go line 69 (deleted in source or destination). -/
def deletedMsg (subPath : Path) : String :=
  s!"the nested snapshot under the path \"{subPath}\" was deleted in either the source or destination snapshot, so the two snapshots have to be manually merged"

/-- Error text of merge.go line 80 (base rolled back in the source). -/
def rolledBackSrcMsg (subPath : Path) : String :=
  s!"nested changes under the path \"{subPath}\" were rolled back in the source snapshot, so the two snapshots have to be manually merged"

/-- Error text of merge.go line 87 (base rolled back in the destination). -/
def rolledBackDestMsg (subPath : Path) : String :=
  s!"nested changes under the path \"{subPath}\" were rolled back in the destination snapshot, so the two snapshots have to be manually merged"

/-- Error text of merge.go line 113 (symlink requires manual merge). -/
def symlinkMsg (subPath : Path) : String :=
  s!"one or both versions of the snapshot at \"{subPath}\" represent a symlink, so the two snapshots for that path have to be manually merged"

/-- Error text of merge.go lines 94/98/104 (snapshot read failure). -/
def readSnapshotFailMsg (h : Hash) (e : String) : String :=
  s!"failure reading the file snapshot for \"{hashString h}\": {e}"

/-- Error text of merge.go lines 126/130/136 (tree read failure). -/
def readTreeFailMsg (h : Hash) (e : String) : String :=
  s!"failure reading the tree for the snapshot \"{hashString h}\": {e}"

/-- Error text of merge.go line 169 (mode mismatch between the versions). -/
def modeMismatchMsg (subPath : Path) (srcMode destMode : String) : String :=
  s!"file permissions for \"{subPath}\" do not match between versions; source mode line: \"{srcMode}\", destination mode line \"{destMode}\". Manually update the permissions for the source to match what you want for the merge result, and then re-run the merge with the option to force using the source permissions"

/-- Resolution of `baseFile` (merge.go lines 100-106): read the base snapshot
only when `base` is non-nil. -/
def baseFileRes (env : MergeEnv) (base : Option Hash) : Except String (Option File) :=
  match base with
  | none => .ok none
  | some b =>
    match env.readSnapshot b with
    | .error e => .error (readSnapshotFailMsg b e)
    | .ok f => .ok (some f)

/-- Resolution of `baseTree` (merge.go lines 132-142): the base's tree when
the base snapshot is a directory, the empty tree otherwise (in particular
when `baseFile` is nil). -/
def baseTreeRes (env : MergeEnv) (base : Option Hash) (baseFile : Option File) :
    Except String Tree :=
  match base, baseFile with
  | some b, some bf =>
    if bf.isDir then
      match env.listDir b bf with
      | .error e => .error (readTreeFailMsg b e)
      | .ok t => .ok t
    else .ok []
  | _, _ => .ok []

/-- The union of the two trees' key sets (merge.go lines 145-151), as a
duplicate-free list. -/
def childUnion (srcTree destTree : Tree) : List Path :=
  ((srcTree.map Prod.fst) ++ (destTree.map Prod.fst)).dedup

/-- The per-child loop of merge.go lines 153-166, processing the iteration
list in order: a child error is appended to the error accumulator, a non-nil
merged child hash is recorded in the merged tree. -/
def mergeChildren
    (recFn : Path → Option Hash → Option Hash → Option Hash → MergeRes)
    (subPath : Path) (baseTree srcTree destTree : Tree) :
    List Path → List String × Tree
  | [] => ([], [])
  | p :: rest =>
    let childRes := recFn (pathJoin subPath p) (treeLookup baseTree p)
      (treeLookup srcTree p) (treeLookup destTree p)
    let acc := mergeChildren recFn subPath baseTree srcTree destTree rest
    match childRes with
    | .err e => (e :: acc.1, acc.2)
    | .ok none => (acc.1, acc.2)
    | .ok (some h) => (acc.1, (p, h) :: acc.2)

/-- One unfolding of `mergeWithBase` (merge.go lines 51-196) with the
recursive occurrence abstracted as `recFn`.  The trivial cases, deletion
check, rollback checks, snapshot reads, symlink/non-directory dispatch and
the directory merge are laid out exactly as in the source. -/
def mergeStep (env : MergeEnv)
    (recFn : Path → Option Hash → Option Hash → Option Hash → MergeRes)
    (subPath : Path) (base src dest : Option Hash) (forceKeepMode : Bool) :
    MergeRes :=
  if src = dest then .ok src
  else if src = base then .ok dest
  else if dest = base then .ok src
  else
    match src, dest with
    | none, _ => .err (deletedMsg subPath)
    | some _, none => .err (deletedMsg subPath)
    | some sh, some dh =>
      match IsAncestor env base sh with
      | .error e => .err e
      | .ok false => .err (rolledBackSrcMsg subPath)
      | .ok true =>
        match IsAncestor env base dh with
        | .error e => .err e
        | .ok false => .err (rolledBackDestMsg subPath)
        | .ok true =>
          match env.readSnapshot sh with
          | .error e => .err (readSnapshotFailMsg sh e)
          | .ok srcFile =>
            match env.readSnapshot dh with
            | .error e => .err (readSnapshotFailMsg dh e)
            | .ok destFile =>
              match baseFileRes env base with
              | .error e => .err e
              | .ok baseFile =>
                if srcFile.isLink || destFile.isLink then .err (symlinkMsg subPath)
                else if !(srcFile.isDir && destFile.isDir) then
                  env.helper subPath destFile.mode base sh dh
                else
                  match env.listDir sh srcFile with
                  | .error e => .err (readTreeFailMsg sh e)
                  | .ok srcTree =>
                    match env.listDir dh destFile with
                    | .error e => .err (readTreeFailMsg dh e)
                    | .ok destTree =>
                      match baseTreeRes env base baseFile with
                      | .error e => .err e
                      | .ok baseTree =>
                        let acc := mergeChildren recFn subPath baseTree srcTree destTree
                          (env.iterOrder (childUnion srcTree destTree))
                        let nestedErrors :=
                          if srcFile.mode ≠ destFile.mode ∧ forceKeepMode = false then
                            acc.1 ++ [modeMismatchMsg subPath srcFile.mode destFile.mode]
                          else acc.1
                        if nestedErrors.isEmpty then
                          match env.storeObject (treeString acc.2) with
                          | .error e => .err (s!"failure storing the contents of a merged tree: {e}")
                          | .ok contentsHash =>
                            match env.storeObject
                                (env.fileString ⟨srcFile.mode, some contentsHash, [sh, dh]⟩) with
                            | .error e => .err (s!"failure storing the merged snapshot: {e}")
                            | .ok h => .ok (some h)
                        else .err (String.intercalate "\n" nestedErrors)

/-- Embeds `mergeWithBase` (merge.go lines 51-196) with fuel bounding the
recursion depth (the Go recursion is bounded by the height of the snapshot
DAG). -/
def mergeWithBase (env : MergeEnv) :
    Nat → Path → Option Hash → Option Hash → Option Hash → Bool → MergeRes
  | 0, _, _, _, _, _ => .err "merge recursion fuel exhausted"
  | n + 1, subPath, base, src, dest, forceKeepMode =>
    mergeStep env
      (fun sp b s d => mergeWithBase env n sp b s d forceKeepMode)
      subPath base src dest forceKeepMode

/-- The error contributed by one child of the directory-merge loop. -/
def childErr (recFn : Path → Option Hash → Option Hash → Option Hash → MergeRes)
    (subPath : Path) (baseTree srcTree destTree : Tree) (p : Path) : Option String :=
  match recFn (pathJoin subPath p) (treeLookup baseTree p) (treeLookup srcTree p)
      (treeLookup destTree p) with
  | .err e => some e
  | _ => none

/-- The merged-tree entry contributed by one child of the directory-merge
loop. -/
def childEntry (recFn : Path → Option Hash → Option Hash → Option Hash → MergeRes)
    (subPath : Path) (baseTree srcTree destTree : Tree) (p : Path) :
    Option (Path × Hash) :=
  match recFn (pathJoin subPath p) (treeLookup baseTree p) (treeLookup srcTree p)
      (treeLookup destTree p) with
  | .ok (some h) => some (p, h)
  | _ => none

/-- Two merge results agree up to error text: both fail, or both succeed
with the same hash. -/
def resAligned : MergeRes → MergeRes → Prop
  | .ok a, .ok b => a = b
  | .err _, .err _ => True
  | _, _ => False

/-! ## Concrete instances used to evaluate the embedding -/

/-- A previous snapshot record for the idempotence scenario. -/
def c1PrevFile : File := ⟨"-rw-r--r--", some ⟨"sha256", "c0"⟩, []⟩

/-- Store responses for the idempotence scenario: a previous snapshot exists. -/
def c1Env : SnapEnv where
  findSnapshot := .found ⟨"sha256", "p0"⟩ c1PrevFile
  storeSnapshotRes := fun _ => .ok ⟨"sha256", "s0"⟩
  storeObject := fun _ => .ok ⟨"sha256", "o0"⟩
  pathInfoMatchesCache := false
  postLstatMtime := none

/-- Store responses for the cache-guard scenario: a fresh file, the post-read
`Lstat` observing mtime 9.3s. -/
def c8Env : SnapEnv where
  findSnapshot := .notExist
  storeSnapshotRes := fun _ => .ok ⟨"sha256", "m8"⟩
  storeObject := fun _ => .ok ⟨"sha256", "c8"⟩
  pathInfoMatchesCache := false
  postLstatMtime := some 9300000000

/-- Store responses for the directory-snapshot scenario with a failing
object store. -/
def c10Env : SnapEnv where
  findSnapshot := .notExist
  storeSnapshotRes := fun _ => .ok ⟨"sha256", "m10"⟩
  storeObject := fun _ => .error "disk full"
  pathInfoMatchesCache := false
  postLstatMtime := none

/-- A merge store with two directory snapshots `s` and `d` holding disjoint
children, merged cleanly. -/
def mergeDemoEnv : MergeEnv where
  readLog := fun _ => .ok []
  readSnapshot := fun h =>
    if h.hex = "s" ∨ h.hex = "d" then .ok ⟨"drwxr-xr-x", none, []⟩
    else .error "not found"
  listDir := fun h _ =>
    if h.hex = "s" then .ok [("a", ⟨"sha256", "a1"⟩)]
    else .ok [("b", ⟨"sha256", "b1"⟩)]
  storeObject := fun s => .ok ⟨"sha256", s⟩
  fileString := fun f => f.mode
  iterOrder := fun l => l
  helper := fun _ _ _ _ _ => .err "helper refused"

/-- A merge store for the rollback scenario: every log is empty, so no
non-nil base is an ancestor of anything. -/
def c3Env : MergeEnv where
  readLog := fun _ => .ok []
  readSnapshot := fun _ => .error "not found"
  listDir := fun _ _ => .error "not found"
  storeObject := fun s => .ok ⟨"sha256", s⟩
  fileString := fun f => f.mode
  iterOrder := fun l => l
  helper := fun _ _ _ _ _ => .err "helper refused"

/-- A merge store whose two directory snapshots `s9` and `d9` hold symlink
children `a` and `b`, both of which force manual-merge errors. -/
def c9CexEnv : MergeEnv where
  readLog := fun _ => .ok []
  readSnapshot := fun h =>
    if h.hex = "s9" ∨ h.hex = "d9" then .ok ⟨"drwxr-xr-x", none, []⟩
    else .ok ⟨"Lrwxrwxrwx", none, []⟩
  listDir := fun h _ =>
    if h.hex = "s9" then .ok [("a", ⟨"sha256", "a1"⟩), ("b", ⟨"sha256", "b1"⟩)]
    else .ok [("a", ⟨"sha256", "a2"⟩), ("b", ⟨"sha256", "b2"⟩)]
  storeObject := fun s => .ok ⟨"sha256", s⟩
  fileString := fun f => f.mode
  iterOrder := fun l => l
  helper := fun _ _ _ _ _ => .err "helper refused"

/-- A sign-helper run that writes a well-formed hash and exits with status 1. -/
def c6SignEnv : SignEnv where
  run := ⟨none, "sha256:deadbeef\n", 1⟩
  update := fun _ => .ok ()

/-- A pull mirror whose helper writes a well-formed hash and is then killed
(exit status 137). -/
def c6Mirror : Mirror := ⟨some ⟨"file", "file:///mirror"⟩, [], ⟨none, "sha256:cafe\n", 137⟩⟩

/-- A well-behaved sign-helper run (exit 0) for the argument-vector claims. -/
def c7Env : SignEnv where
  run := ⟨none, "sha256:sig\n", 0⟩
  update := fun _ => .ok ()

/-- The identity of the pull-ratchet scenario. -/
def c5Id : Identity := ⟨"ex", "u"⟩

/-- A pull mirror returning signature `s1`. -/
def c5Mirror : Mirror := ⟨some ⟨"file", "file:///m1"⟩, [], ⟨none, "sha256:s1\n", 0⟩⟩

/-- Pull environment: current signature `s0` verifying to `t0`; `s1` verifies
to `t1`; anything else is rejected. -/
def c5Env : PullEnv where
  latestSig := .ok (some ⟨"sha256", "s0"⟩)
  verify := fun s =>
    if s = some ⟨"sha256", "s0"⟩ then .ok (some ⟨"sha256", "t0"⟩)
    else if s = some ⟨"sha256", "s1"⟩ then .ok (some ⟨"sha256", "t1"⟩)
    else .error "bad signature"
  update := fun _ => .ok ()

/-- Mirror configuration for the pull-ratchet scenario. -/
def c5Settings : Settings := ⟨[⟨"ex::u", [some c5Mirror]⟩], []⟩

/-! ## Theorems -/

/-- Claim C1: snapshot idempotence.  When the previous snapshot for the path
has the same mode line and contents hash, `snapshotFileMetadata` returns the
previous hash and `File` unchanged and passes nothing to `StoreSnapshot`;
otherwise it hands `StoreSnapshot` exactly one new `File` whose parents are
`[prev]` when a previous snapshot exists and `[]` when it does not, returning
the stored record on success. -/
theorem c1_snapshot_idempotence (env : SnapEnv) (p : Path) (modeLine : String)
    (contentsHash : Option Hash) :
    (∀ ph prev, env.findSnapshot = .found ph prev →
        prev.mode = modeLine → prev.contents = contentsHash →
        snapshotFileMetadata env p modeLine contentsHash = (.ok (ph, prev), [])) ∧
    (∀ ph prev, env.findSnapshot = .found ph prev →
        ¬(prev.mode = modeLine ∧ prev.contents = contentsHash) →
        (snapshotFileMetadata env p modeLine contentsHash).2 =
          [⟨modeLine, contentsHash, [ph]⟩] ∧
        ∀ h, env.storeSnapshotRes ⟨modeLine, contentsHash, [ph]⟩ = .ok h →
          (snapshotFileMetadata env p modeLine contentsHash).1 =
            .ok (h, ⟨modeLine, contentsHash, [ph]⟩)) ∧
    (env.findSnapshot = .notExist →
        (snapshotFileMetadata env p modeLine contentsHash).2 =
          [⟨modeLine, contentsHash, ([] : List Hash)⟩] ∧
        ∀ h, env.storeSnapshotRes ⟨modeLine, contentsHash, ([] : List Hash)⟩ = .ok h →
          (snapshotFileMetadata env p modeLine contentsHash).1 =
            .ok (h, ⟨modeLine, contentsHash, []⟩)) := by
  refine ⟨?_, ?_, ?_⟩
  · intro ph prev hf hm hc
    simp [snapshotFileMetadata, hf, hm, hc]
  · intro ph prev hf hne
    refine ⟨by simp [snapshotFileMetadata, hf, hne], ?_⟩
    intro h hs
    simp [snapshotFileMetadata, hf, hne, hs]
  · intro hf
    refine ⟨by simp [snapshotFileMetadata, hf], ?_⟩
    intro h hs
    simp [snapshotFileMetadata, hf, hs]

/-- Witness for C1: a concrete unchanged file hits the prev-equal branch. -/
theorem c1_witness :
    snapshotFileMetadata c1Env "/t/f" "-rw-r--r--" (some ⟨"sha256", "c0"⟩) =
      (.ok (⟨"sha256", "p0"⟩, c1PrevFile), []) :=
  (c1_snapshot_idempotence c1Env "/t/f" "-rw-r--r--" (some ⟨"sha256", "c0"⟩)).1
    ⟨"sha256", "p0"⟩ c1PrevFile rfl rfl rfl

/-- Claim C10: when storing the serialized tree fails, `snapshotDirectory`
discards the store error and proceeds exactly as if the contents hash were
nil, so the I/O error never reaches the caller. -/
theorem c10_store_error_discarded (env : SnapEnv) (p : Path) (modeLine : String)
    (t : Tree) (msg : String)
    (h : env.storeObject (treeString t) = .error msg) :
    snapshotDirectory env p modeLine t = snapshotFileMetadata env p modeLine none := by
  simp only [snapshotDirectory, h]

/-- Witness for C10: a failing object store on a concrete directory snapshot
still yields a successfully stored `File` with a nil contents hash. -/
theorem c10_witness :
    snapshotDirectory c10Env "/t/d" "drwxr-xr-x" [] =
      snapshotFileMetadata c10Env "/t/d" "drwxr-xr-x" none ∧
    (snapshotDirectory c10Env "/t/d" "drwxr-xr-x" []).1 =
      .ok (⟨"sha256", "m10"⟩, ⟨"drwxr-xr-x", none, []⟩) :=
  ⟨c10_store_error_discarded c10Env "/t/d" "drwxr-xr-x" [] "disk full" rfl, rfl⟩

/-- Claim C8 (amended): after a regular-file snapshot that misses the cache
fast path succeeds, `CachePathInfo` is called iff the post-read `Lstat` mtime
equals the pre-read mtime and that mtime is strictly earlier than one second
before the snapshot start time truncated down to a whole second; in every
other case (including a failed post-read `Lstat` or a failed snapshot) no
cache entry is written. -/
theorem c8_cache_write_guard (env : SnapEnv) (p : Path) (modeLine contents : String)
    (preMtime now : Int) (hmiss : readCached env = none) :
    (∀ v, (snapshotRegularFile env p modeLine contents preMtime now).1 = .ok v →
      ((snapshotRegularFile env p modeLine contents preMtime now).2.2 = true ↔
        (env.postLstatMtime = some preMtime ∧
          preMtime < truncSec now - 1000000000))) ∧
    (∀ e, (snapshotRegularFile env p modeLine contents preMtime now).1 = .error e →
      (snapshotRegularFile env p modeLine contents preMtime now).2.2 = false) := by
  cases hso : env.storeObject contents with
  | error m =>
    constructor
    · intro v hv
      simp [snapshotRegularFile, hmiss, hso] at hv
    · intro e he
      simp [snapshotRegularFile, hmiss, hso]
  | ok h =>
    constructor
    · intro v hv
      simp only [snapshotRegularFile, hmiss, hso] at hv ⊢
      rw [hv]
      rcases hpost : env.postLstatMtime with _ | latest
      · simp [cacheDecision, hpost]
      · by_cases hl : latest = preMtime
        · subst hl
          by_cases hlt : latest < truncSec now - 1000000000
          · simp [cacheDecision, hpost, hlt]
          · simp [cacheDecision, hpost, hlt]
        · simp [cacheDecision, hpost, hl]
    · intro e he
      simp only [snapshotRegularFile, hmiss, hso] at he ⊢
      simp [cacheDecision, he]

/-- Witness for C8: on a concrete run whose mtime is old enough, the guard
fires and the cache is written. -/
theorem c8_witness :
    (snapshotRegularFile c8Env "/t/f" "-rw-r--r--" "a" 9300000000 20000000000).2.2 = true ↔
      (c8Env.postLstatMtime = some 9300000000 ∧
        (9300000000 : Int) < truncSec 20000000000 - 1000000000) :=
  (c8_cache_write_guard c8Env "/t/f" "-rw-r--r--" "a" 9300000000 20000000000 rfl).1
    (⟨"sha256", "m8"⟩, ⟨"-rw-r--r--", some ⟨"sha256", "c8"⟩, []⟩) rfl

/-- Counterexample for C8 as stated: with the snapshot starting at 10.5s and
a stable mtime of 9.3s, the mtime is strictly earlier than one second before
the start time (9.3 < 9.5), the post-read `Lstat` agrees with the pre-read
mtime, and the snapshot succeeds — yet no cache entry is written, because the
code compares against the start time truncated to a whole second (9.3 ≥ 9). -/
theorem c8_counterexample :
    c8Env.postLstatMtime = some 9300000000 ∧
    ((9300000000 : Int) < 10500000000 - 1000000000) ∧
    (snapshotRegularFile c8Env "/t/f" "-rw-r--r--" "a" 9300000000 10500000000).1 =
      .ok (⟨"sha256", "m8"⟩, ⟨"-rw-r--r--", some ⟨"sha256", "c8"⟩, []⟩) ∧
    (snapshotRegularFile c8Env "/t/f" "-rw-r--r--" "a" 9300000000 10500000000).2.2 = false :=
  ⟨rfl, by decide, rfl, rfl⟩

/-- Claim C2: merge trivialities.  `mergeWithBase` returns `src` when
`src = dest`, else `dest` when `src = base`, else `src` when `dest = base`,
before any other check (for every store, any fuel, nullable hashes
included). -/
theorem c2_merge_trivialities (env : MergeEnv) (fuel : Nat) (sp : Path)
    (base src dest : Option Hash) (fkm : Bool) :
    (src = dest → mergeWithBase env (fuel + 1) sp base src dest fkm = .ok src) ∧
    (src ≠ dest → src = base →
      mergeWithBase env (fuel + 1) sp base src dest fkm = .ok dest) ∧
    (src ≠ dest → dest = base →
      mergeWithBase env (fuel + 1) sp base src dest fkm = .ok src) := by
  refine ⟨?_, ?_, ?_⟩
  · intro h1
    simp [mergeWithBase, mergeStep, h1]
  · intro h1 h2
    simp [mergeWithBase, mergeStep, h1, h2]
  · intro h1 h2
    have h3 : src ≠ base := fun hh => h1 (hh.trans h2.symm)
    simp [mergeWithBase, mergeStep, h1, h2, h3]

/-- Witness for C2: with `src = base`, a concrete merge returns `dest`. -/
theorem c2_witness :
    mergeWithBase mergeDemoEnv 1 "/p" (some ⟨"sha256", "s"⟩) (some ⟨"sha256", "s"⟩)
      (some ⟨"sha256", "d"⟩) false = .ok (some ⟨"sha256", "d"⟩) :=
  (c2_merge_trivialities mergeDemoEnv 0 "/p" (some ⟨"sha256", "s"⟩)
    (some ⟨"sha256", "s"⟩) (some ⟨"sha256", "d"⟩) false).2.1 (by decide) rfl

/-- Claim C3: rollback detection.  Once the trivial cases fail to apply, a
nil source or destination fails with the deletion message; a non-nil base
absent from the source's log fails with the source-rollback message; a base
present in the source's log but absent from the destination's log fails with
the destination-rollback message.  All three produce errors, never a merge
result. -/
theorem c3_rollback_detection (env : MergeEnv) (fuel : Nat) (sp : Path)
    (base src dest : Option Hash) (fkm : Bool)
    (h1 : src ≠ dest) (h2 : src ≠ base) (h3 : dest ≠ base) :
    ((src = none ∨ dest = none) →
      mergeWithBase env (fuel + 1) sp base src dest fkm = .err (deletedMsg sp)) ∧
    (∀ sh dh b l, src = some sh → dest = some dh → base = some b →
      env.readLog sh = .ok l → b ∉ l →
      mergeWithBase env (fuel + 1) sp base src dest fkm = .err (rolledBackSrcMsg sp)) ∧
    (∀ sh dh b ls ld, src = some sh → dest = some dh → base = some b →
      env.readLog sh = .ok ls → b ∈ ls → env.readLog dh = .ok ld → b ∉ ld →
      mergeWithBase env (fuel + 1) sp base src dest fkm = .err (rolledBackDestMsg sp)) := by
  refine ⟨?_, ?_, ?_⟩
  · intro hnil
    rcases hnil with hs | hd
    · subst hs
      simp [mergeWithBase, mergeStep, h1, h2, h3]
    · subst hd
      cases src with
      | none => exact absurd rfl h1
      | some s => simp [mergeWithBase, mergeStep, h1, h2, h3]
  · intro sh dh b l hs hd hb hlog hnot
    subst hs; subst hd; subst hb
    simp [mergeWithBase, mergeStep, h1, h2, h3, IsAncestor, hlog, hnot]
  · intro sh dh b ls ld hs hd hb hlogs hmem hlogd hnot
    subst hs; subst hd; subst hb
    simp [mergeWithBase, mergeStep, h1, h2, h3, IsAncestor, hlogs, hmem, hlogd, hnot]

/-- Witness for C3: a concrete base that never appears in the source's log
produces the source-rollback error. -/
theorem c3_witness :
    mergeWithBase c3Env 1 "/p" (some ⟨"sha256", "b"⟩) (some ⟨"sha256", "x"⟩)
      (some ⟨"sha256", "y"⟩) false = .err (rolledBackSrcMsg "/p") :=
  (c3_rollback_detection c3Env 0 "/p" (some ⟨"sha256", "b"⟩) (some ⟨"sha256", "x"⟩)
    (some ⟨"sha256", "y"⟩) false (by decide) (by decide) (by decide)).2.1
    ⟨"sha256", "x"⟩ ⟨"sha256", "y"⟩ ⟨"sha256", "b"⟩ [] rfl rfl rfl rfl
    (List.not_mem_nil _)

/-- Claim C4: directory merge result.  Whenever a non-trivial merge of two
directory snapshots succeeds, the returned hash is the stored serialization
of a `File` whose mode is the source file's mode, whose contents hash is the
stored serialization of the merged `Tree`, and whose parents are exactly
`[src, dest]` in that order. -/
theorem c4_directory_merge_result (env : MergeEnv) (fuel : Nat) (sp : Path)
    (base : Option Hash) (sh dh : Hash) (fkm : Bool)
    (srcFile destFile : File) (baseFile : Option File)
    (srcTree destTree baseTree : Tree) (contentsHash h : Hash)
    (hne : sh ≠ dh) (hsb : base ≠ some sh) (hdb : base ≠ some dh)
    (hrs : env.readSnapshot sh = .ok srcFile)
    (hrd : env.readSnapshot dh = .ok destFile)
    (hnls : srcFile.isLink = false) (hnld : destFile.isLink = false)
    (hds : srcFile.isDir = true) (hdd : destFile.isDir = true)
    (hbf : baseFileRes env base = .ok baseFile)
    (hbt : baseTreeRes env base baseFile = .ok baseTree)
    (hts : env.listDir sh srcFile = .ok srcTree)
    (htd : env.listDir dh destFile = .ok destTree)
    (hch : env.storeObject (treeString
        (mergeChildren (fun sp1 b s d => mergeWithBase env fuel sp1 b s d fkm)
          sp baseTree srcTree destTree
          (env.iterOrder (childUnion srcTree destTree))).2) = .ok contentsHash)
    (hrun : mergeWithBase env (fuel + 1) sp base (some sh) (some dh) fkm =
      .ok (some h)) :
    env.storeObject (env.fileString ⟨srcFile.mode, some contentsHash, [sh, dh]⟩) =
      .ok h := by
  have hsb' : (some sh : Option Hash) ≠ base := fun hh => hsb hh.symm
  have hdb' : (some dh : Option Hash) ≠ base := fun hh => hdb hh.symm
  rcases has : IsAncestor env base sh with es | bs
  · simp [mergeWithBase, mergeStep, hne, hsb', hdb', has] at hrun
  cases bs with
  | false => simp [mergeWithBase, mergeStep, hne, hsb', hdb', has] at hrun
  | true =>
  rcases had : IsAncestor env base dh with ed | bd
  · simp [mergeWithBase, mergeStep, hne, hsb', hdb', has, had] at hrun
  cases bd with
  | false => simp [mergeWithBase, mergeStep, hne, hsb', hdb', has, had] at hrun
  | true =>
  by_cases hmode : srcFile.mode ≠ destFile.mode ∧ fkm = false
  · simp [mergeWithBase, mergeStep, hne, hsb', hdb', has, had, hrs, hrd, hbf,
      hnls, hnld, hds, hdd, hts, htd, hbt, hmode] at hrun
  cases hacc : (mergeChildren (fun sp1 b s d => mergeWithBase env fuel sp1 b s d fkm)
      sp baseTree srcTree destTree (env.iterOrder (childUnion srcTree destTree))).1 with
  | cons e es =>
    simp [mergeWithBase, mergeStep, hne, hsb', hdb', has, had, hrs, hrd, hbf,
      hnls, hnld, hds, hdd, hts, htd, hbt, hmode, hacc] at hrun
  | nil =>
    rcases hfs : env.storeObject
        (env.fileString ⟨srcFile.mode, some contentsHash, [sh, dh]⟩) with e2 | h2
    · simp [mergeWithBase, mergeStep, hne, hsb', hdb', has, had, hrs, hrd, hbf,
        hnls, hnld, hds, hdd, hts, htd, hbt, hmode, hacc, hch, hfs] at hrun
    · simp [mergeWithBase, mergeStep, hne, hsb', hdb', has, had, hrs, hrd, hbf,
        hnls, hnld, hds, hdd, hts, htd, hbt, hmode, hacc, hch, hfs] at hrun
      rw [hrun]

/-- Witness for C4: the concrete clean directory merge stores a merged `File`
with the source's mode, the merged tree's hash and parents `[src, dest]`. -/
theorem c4_witness :
    mergeDemoEnv.storeObject (mergeDemoEnv.fileString
      ⟨"drwxr-xr-x", some ⟨"sha256", "a\tsha256:a1\nb\tsha256:b1\n"⟩,
        [⟨"sha256", "s"⟩, ⟨"sha256", "d"⟩]⟩) = .ok ⟨"sha256", "drwxr-xr-x"⟩ :=
  c4_directory_merge_result mergeDemoEnv 1 "/p" none ⟨"sha256", "s"⟩ ⟨"sha256", "d"⟩
    false ⟨"drwxr-xr-x", none, []⟩ ⟨"drwxr-xr-x", none, []⟩ none
    [("a", ⟨"sha256", "a1"⟩)] [("b", ⟨"sha256", "b1"⟩)] []
    ⟨"sha256", "a\tsha256:a1\nb\tsha256:b1\n"⟩ ⟨"sha256", "drwxr-xr-x"⟩
    (by decide) (by decide) (by decide) rfl rfl rfl rfl rfl rfl rfl rfl rfl rfl
    rfl rfl

/-- Claim C6 (code bug): the helper exit status is never examined.  A sign
helper that writes a well-formed hash and exits with status 1, and a pull
helper that is killed (exit 137) after writing a full hash, both yield
successful results — the embedded `Sign` and `pullFrom`, like the source
(which never calls `Wait`), ignore the recorded exit code. -/
theorem c6_exit_code_ignored :
    c6SignEnv.run.exitCode = 1 ∧
    (Sign c6SignEnv (some ⟨"example", "user"⟩) (some ⟨"sha256", "ab"⟩) none).1 =
      .ok ⟨"sha256", "deadbeef"⟩ ∧
    c6Mirror.run.exitCode = 137 ∧
    (pullFrom (some c6Mirror) ⟨"example", "user"⟩ none).1 =
      .ok (some ⟨"sha256", "cafe"⟩) :=
  ⟨rfl, rfl, rfl, rfl⟩

/-- Claim C7 (amended): `Sign` invokes the helper `rvcs-sign-<ns>` with first
argument the identity's contents (the part after `::`, not the full identity
string), second argument the hash's textual form, and — only when a previous
signature exists — a third argument holding its textual form (no empty-string
placeholder otherwise); it then parses the helper's stdout as a hash, updates
the identity index to that hash, and returns it. -/
theorem c7_sign_argv (env : SignEnv) (id : Identity) (h : Hash)
    (prev : Option Hash) (hstart : env.run.startErr = none) :
    (∀ inv, (Sign env (some id) (some h) prev).2.1 = some inv →
      inv = ⟨"rvcs-sign-" ++ id.ns,
        [id.contents, hashString h] ++
          (match prev with
           | some p => [hashString p]
           | none => [])⟩) ∧
    (∀ h', parseHash env.run.stdout = .ok h' → env.update h' = .ok () →
      Sign env (some id) (some h) prev =
        (.ok h',
         some ⟨"rvcs-sign-" ++ id.ns,
           [id.contents, hashString h] ++
             (match prev with
              | some p => [hashString p]
              | none => [])⟩,
         some h')) := by
  constructor
  · intro inv hinv
    cases hp : parseHash env.run.stdout with
    | error m => simp [Sign, hstart, hp] at hinv; simp [hinv.symm]
    | ok h' =>
      cases hu : env.update h' with
      | error m => simp [Sign, hstart, hp, hu] at hinv; simp [hinv.symm]
      | ok u => simp [Sign, hstart, hp, hu] at hinv; simp [hinv.symm]
  · intro h' hp hu
    simp [Sign, hstart, hp, hu]

/-- Witness for C7: a concrete signing run with a previous signature invokes
`rvcs-sign-example` with `["user", "sha256:ab", "sha256:pp"]`, returns the
parsed stdout hash and updates the index to it. -/
theorem c7_witness :
    Sign c7Env (some ⟨"example", "user"⟩) (some ⟨"sha256", "ab"⟩)
        (some ⟨"sha256", "pp"⟩) =
      (.ok ⟨"sha256", "sig"⟩,
       some ⟨"rvcs-sign-example", ["user", "sha256:ab", "sha256:pp"]⟩,
       some ⟨"sha256", "sig"⟩) :=
  (c7_sign_argv c7Env ⟨"example", "user"⟩ ⟨"sha256", "ab"⟩
    (some ⟨"sha256", "pp"⟩) rfl).2 ⟨"sha256", "sig"⟩ rfl rfl

/-- Counterexample for C7 as stated: for the identity `example::user` the
helper receives `["user", "sha256:ab"]` — neither the full identity string as
first argument nor an empty-string third argument. -/
theorem c7_counterexample :
    (Sign c7Env (some ⟨"example", "user"⟩) (some ⟨"sha256", "ab"⟩) none).2.1 =
      some ⟨"rvcs-sign-example", ["user", "sha256:ab"]⟩ ∧
    (["user", "sha256:ab"] : List String) ≠ ["example::user", "sha256:ab", ""] := by
  constructor
  · rfl
  · decide

/-- The ratchet invariant: the running `(signature, signed)` pair is either
still the initial pair, or a signature together with its successful
verification output. -/
def keptOrVerified (env : PullEnv) (init acc : Option Hash × Option Hash) : Prop :=
  acc = init ∨ env.verify acc.1 = .ok acc.2

theorem pullFromAndVerify_kept (env : PullEnv) (m : Option Mirror) (id : Identity)
    (acc res init : Option Hash × Option Hash)
    (hP : keptOrVerified env init acc)
    (h : pullFromAndVerify env m id acc.1 acc.2 = .ok res) :
    keptOrVerified env init res := by
  unfold pullFromAndVerify at h
  cases hpf : (pullFrom m id acc.1).1 with
  | error e => rw [hpf] at h; cases h
  | ok signature =>
    simp only [hpf] at h
    by_cases hs : signature = acc.1
    · rw [if_pos hs] at h
      cases h
      exact hP
    · rw [if_neg hs] at h
      cases hv : env.verify signature with
      | error e => rw [hv] at h; cases h
      | ok signed =>
        rw [hv] at h
        cases h
        exact Or.inr hv

theorem pullMirrorList_kept (env : PullEnv) (id : Identity) :
    ∀ (ms : List (Option Mirror)) (acc res init : Option Hash × Option Hash),
      keptOrVerified env init acc → pullMirrorList env id ms acc = .ok res →
      keptOrVerified env init res := by
  intro ms
  induction ms with
  | nil =>
    intro acc res init hP h
    cases h
    exact hP
  | cons m rest ih =>
    intro acc res init hP h
    unfold pullMirrorList at h
    cases hfv : pullFromAndVerify env m id acc.1 acc.2 with
    | error e => rw [hfv] at h; cases h
    | ok acc' =>
      rw [hfv] at h
      exact ih acc' res init (pullFromAndVerify_kept env m id acc acc' init hP hfv) h

theorem pullIdentityLoop_kept (env : PullEnv) (id : Identity) :
    ∀ (cs : List IdentityConfig) (acc res init : Option Hash × Option Hash),
      keptOrVerified env init acc → pullIdentityLoop env id cs acc = .ok res →
      keptOrVerified env init res := by
  intro cs
  induction cs with
  | nil =>
    intro acc res init hP h
    cases h
    exact hP
  | cons c rest ih =>
    intro acc res init hP h
    unfold pullIdentityLoop at h
    by_cases hc : c.name = idString id
    · rw [if_pos hc] at h
      cases hml : pullMirrorList env id c.pullMirrors acc with
      | error e => rw [hml] at h; cases h
      | ok acc' =>
        rw [hml] at h
        exact ih acc' res init (pullMirrorList_kept env id c.pullMirrors acc acc' init hP hml) h
    · rw [if_neg hc] at h
      exact ih acc res init hP h

/-- Claim C5: pull ratchet and atomicity.  If `Pull` fails — index lookup,
any verification, or any mirror's pull helper — the identity index is left
unchanged; if it succeeds, the index now holds exactly the returned
signature, which is either the initial signature (no mirror produced a new
verified one) or a signature whose verification succeeded with the returned
signed snapshot. -/
theorem c5_pull_ratchet (env : PullEnv) (settings : Settings) (id : Identity) :
    (∀ e, (Pull env settings id).1 = .error e → (Pull env settings id).2 = none) ∧
    (∀ sig signed, (Pull env settings id).1 = .ok (sig, signed) →
      (Pull env settings id).2 = some sig ∧
      (∀ init signed0, env.latestSig = .ok init → env.verify init = .ok signed0 →
        ((sig, signed) = (init, signed0) ∨ env.verify sig = .ok signed))) := by
  cases hl : env.latestSig with
  | error e0 =>
    constructor
    · intro e he
      simp [Pull, hl]
    · intro sig signed hok
      simp [Pull, hl] at hok
  | ok init' =>
    cases hv : env.verify init' with
    | error e0 =>
      constructor
      · intro e he
        simp [Pull, hl, hv]
      · intro sig signed hok
        simp [Pull, hl, hv] at hok
    | ok signed0' =>
      cases hloop1 : pullIdentityLoop env id settings.identities (init', signed0') with
      | error e0 =>
        constructor
        · intro e he
          simp [Pull, hl, hv, hloop1]
        · intro sig signed hok
          simp [Pull, hl, hv, hloop1] at hok
      | ok acc1 =>
        cases hloop2 : pullMirrorList env id settings.additionalPullMirrors acc1 with
        | error e0 =>
          constructor
          · intro e he
            simp [Pull, hl, hv, hloop1, hloop2]
          · intro sig signed hok
            simp [Pull, hl, hv, hloop1, hloop2] at hok
        | ok acc2 =>
          cases hup : env.update acc2.1 with
          | error e0 =>
            constructor
            · intro e he
              simp [Pull, hl, hv, hloop1, hloop2, hup]
            · intro sig signed hok
              simp [Pull, hl, hv, hloop1, hloop2, hup] at hok
          | ok u =>
            constructor
            · intro e he
              simp [Pull, hl, hv, hloop1, hloop2, hup] at he
            · intro sig signed hok
              simp only [Pull, hl, hv, hloop1, hloop2, hup] at hok ⊢
              have hacc : acc2 = (sig, signed) := by
                cases hok
                rfl
              subst hacc
              refine ⟨rfl, ?_⟩
              intro init signed0 hinit hsigned
              have hinit' : init = init' := by
                cases hinit
                rfl
              subst hinit'
              have hsigned' : signed0 = signed0' := by
                rw [hv] at hsigned
                cases hsigned
                rfl
              subst hsigned'
              have hstart : keptOrVerified env (init, signed0) (init, signed0) :=
                Or.inl rfl
              have h1 := pullIdentityLoop_kept env id settings.identities
                (init, signed0) acc1 (init, signed0) hstart hloop1
              have h2 := pullMirrorList_kept env id settings.additionalPullMirrors
                acc1 (sig, signed) (init, signed0) h1 hloop2
              exact h2

/-- Witness for C5: the concrete scenario (initial `s0` verifying to `t0`,
one mirror returning `s1` verifying to `t1`) updates the index to `s1`. -/
theorem c5_witness :
    (Pull c5Env c5Settings c5Id).2 = some (some ⟨"sha256", "s1"⟩) :=
  ((c5_pull_ratchet c5Env c5Settings c5Id).2 (some ⟨"sha256", "s1"⟩)
    (some ⟨"sha256", "t1"⟩) rfl).1

/-! Order theory for the byte-wise comparison underlying the canonical Tree
serialization. -/

theorem charListLe_total : ∀ a b : List Char,
    charListLe a b = true ∨ charListLe b a = true
  | [], _ => Or.inl rfl
  | _ :: _, [] => Or.inr rfl
  | a :: as, b :: bs => by
    rcases lt_trichotomy a b with h | h | h
    · left
      simp [charListLe, h]
    · subst h
      rcases charListLe_total as bs with ih | ih
      · left
        simp [charListLe, ih]
      · right
        simp [charListLe, ih]
    · right
      simp [charListLe, h]

theorem charListLe_trans : ∀ a b c : List Char,
    charListLe a b = true → charListLe b c = true → charListLe a c = true
  | [], _, _ => fun _ _ => rfl
  | _ :: _, [], _ => fun h _ => by simp [charListLe] at h
  | _ :: _, _ :: _, [] => fun _ h => by simp [charListLe] at h
  | a :: as, b :: bs, c :: cs => fun h1 h2 => by
    rcases lt_trichotomy a b with hab | hab | hab
    · rcases lt_trichotomy b c with hbc | hbc | hbc
      · simp [charListLe, lt_trans hab hbc]
      · subst hbc
        simp [charListLe, hab]
      · simp [charListLe, hbc, lt_asymm hbc] at h2
    · subst hab
      rcases lt_trichotomy a c with hac | hac | hac
      · simp [charListLe, hac]
      · subst hac
        simp only [charListLe, lt_self_iff_false, if_false] at h1 h2 ⊢
        exact charListLe_trans as bs cs h1 h2
      · simp [charListLe, hac, lt_asymm hac] at h2
    · simp [charListLe, hab, lt_asymm hab] at h1

theorem charListLt_asymm : ∀ a b : List Char,
    charListLt a b = true → charListLt b a = true → False
  | [], [] => fun h _ => by simp [charListLt] at h
  | [], _ :: _ => fun _ h => by simp [charListLt] at h
  | _ :: _, [] => fun h _ => by simp [charListLt] at h
  | a :: as, b :: bs => fun h1 h2 => by
    rcases lt_trichotomy a b with h | h | h
    · simp [charListLt, h, lt_asymm h] at h2
    · subst h
      simp only [charListLt, lt_self_iff_false, if_false] at h1 h2
      exact charListLt_asymm as bs h1 h2
    · simp [charListLt, h, lt_asymm h] at h1

theorem charListLe_ne_lt : ∀ a b : List Char,
    charListLe a b = true → a ≠ b → charListLt a b = true
  | [], [] => fun _ hne => absurd rfl hne
  | [], _ :: _ => fun _ _ => rfl
  | _ :: _, [] => fun h _ => by simp [charListLe] at h
  | a :: as, b :: bs => fun h hne => by
    rcases lt_trichotomy a b with hl | hl | hl
    · simp [charListLt, hl]
    · subst hl
      have htail : as ≠ bs := fun he => hne (by rw [he])
      have h' : charListLe as bs = true := by
        simpa [charListLe] using h
      simp [charListLt, charListLe_ne_lt as bs h' htail]
    · simp [charListLe, hl, lt_asymm hl] at h

theorem string_eq_of_data_eq (s t : String) (h : s.data = t.data) : s = t := by
  cases s
  cases t
  exact congrArg String.mk (by simpa using h)

theorem entryLe_total (a b : Path × Hash) : entryLe a b ∨ entryLe b a :=
  charListLe_total a.1.data b.1.data

theorem entryLe_trans (a b c : Path × Hash) (h1 : entryLe a b) (h2 : entryLe b c) :
    entryLe a c :=
  charListLe_trans a.1.data b.1.data c.1.data h1 h2

theorem entryLt_asymm (a b : Path × Hash) (h1 : entryLt a b) (h2 : entryLt b a) :
    False :=
  charListLt_asymm a.1.data b.1.data h1 h2

theorem entryLe_ne_key_lt (a b : Path × Hash) (h : entryLe a b) (hne : a.1 ≠ b.1) :
    entryLt a b :=
  charListLe_ne_lt a.1.data b.1.data h
    (fun he => hne (string_eq_of_data_eq a.1 b.1 he))

/-- A list sorted under `entryLe` whose keys are pairwise distinct is sorted
under the strict order `entryLt`. -/
theorem sorted_le_nodup_lt (l : List (Path × Hash)) (hs : List.Sorted entryLe l)
    (hnd : (l.map Prod.fst).Nodup) : List.Sorted entryLt l := by
  have hne : l.Pairwise fun a b : Path × Hash => a.1 ≠ b.1 :=
    List.pairwise_map.mp hnd
  exact (hs.and hne).imp fun hab => entryLe_ne_key_lt _ _ hab.1 hab.2

/-- Canonical Tree serialization is invariant under permutation of a
duplicate-key-free entry list: the sort order is part of the content
(spec §4.C). -/
theorem treeString_perm (t₁ t₂ : Tree) (hp : List.Perm t₁ t₂)
    (hnd : (t₁.map Prod.fst).Nodup) : treeString t₁ = treeString t₂ := by
  haveI : IsTotal (Path × Hash) entryLe := ⟨entryLe_total⟩
  haveI : IsTrans (Path × Hash) entryLe := ⟨entryLe_trans⟩
  haveI : IsAntisymm (Path × Hash) entryLt :=
    ⟨fun a b h1 h2 => (entryLt_asymm a b h1 h2).elim⟩
  have hperm : List.Perm (List.insertionSort entryLe t₁) (List.insertionSort entryLe t₂) :=
    (List.perm_insertionSort entryLe t₁).trans
      (hp.trans (List.perm_insertionSort entryLe t₂).symm)
  have hs₁ : List.Sorted entryLe (List.insertionSort entryLe t₁) :=
    List.sorted_insertionSort entryLe t₁
  have hs₂ : List.Sorted entryLe (List.insertionSort entryLe t₂) :=
    List.sorted_insertionSort entryLe t₂
  have hnd₁ : ((List.insertionSort entryLe t₁).map Prod.fst).Nodup :=
    (((List.perm_insertionSort entryLe t₁).map Prod.fst).nodup_iff).mpr hnd
  have hnd₂ : ((List.insertionSort entryLe t₂).map Prod.fst).Nodup := by
    have hnd' : (t₂.map Prod.fst).Nodup := ((hp.map Prod.fst).nodup_iff).mp hnd
    exact (((List.perm_insertionSort entryLe t₂).map Prod.fst).nodup_iff).mpr hnd'
  have hsorted : List.insertionSort entryLe t₁ = List.insertionSort entryLe t₂ :=
    List.eq_of_perm_of_sorted hperm
      (sorted_le_nodup_lt _ hs₁ hnd₁) (sorted_le_nodup_lt _ hs₂ hnd₂)
  unfold treeString
  rw [hsorted]

/-! Characterizations of the directory-merge child loop. -/

theorem mergeChildren_fst
    (recFn : Path → Option Hash → Option Hash → Option Hash → MergeRes)
    (sp : Path) (bt st dt : Tree) :
    ∀ l : List Path, (mergeChildren recFn sp bt st dt l).1 =
      l.filterMap (childErr recFn sp bt st dt) := by
  intro l
  induction l with
  | nil => rfl
  | cons p rest ih =>
    cases hr : recFn (pathJoin sp p) (treeLookup bt p) (treeLookup st p)
        (treeLookup dt p) with
    | ok a =>
      cases a with
      | none => simp [mergeChildren, childErr, hr, ih]
      | some h => simp [mergeChildren, childErr, hr, ih]
    | err e => simp [mergeChildren, childErr, hr, ih]

theorem mergeChildren_snd
    (recFn : Path → Option Hash → Option Hash → Option Hash → MergeRes)
    (sp : Path) (bt st dt : Tree) :
    ∀ l : List Path, (mergeChildren recFn sp bt st dt l).2 =
      l.filterMap (childEntry recFn sp bt st dt) := by
  intro l
  induction l with
  | nil => rfl
  | cons p rest ih =>
    cases hr : recFn (pathJoin sp p) (treeLookup bt p) (treeLookup st p)
        (treeLookup dt p) with
    | ok a =>
      cases a with
      | none => simp [mergeChildren, childEntry, hr, ih]
      | some h => simp [mergeChildren, childEntry, hr, ih]
    | err e => simp [mergeChildren, childEntry, hr, ih]

theorem childEntry_key
    (recFn : Path → Option Hash → Option Hash → Option Hash → MergeRes)
    (sp : Path) (bt st dt : Tree) (p : Path) (e : Path × Hash)
    (h : childEntry recFn sp bt st dt p = some e) : e.1 = p := by
  unfold childEntry at h
  cases hr : recFn (pathJoin sp p) (treeLookup bt p) (treeLookup st p)
      (treeLookup dt p) with
  | ok a =>
    cases a with
    | none => rw [hr] at h; cases h
    | some hh => rw [hr] at h; cases h; rfl
  | err m => rw [hr] at h; cases h

theorem filterMap_key_sublist (g : Path → Option (Path × Hash))
    (hg : ∀ p e, g p = some e → e.1 = p) :
    ∀ l : List Path, List.Sublist ((l.filterMap g).map Prod.fst) l := by
  intro l
  induction l with
  | nil => simp
  | cons p rest ih =>
    cases hgp : g p with
    | none =>
      rw [List.filterMap_cons_none hgp]
      exact ih.cons p
    | some e =>
      rw [List.filterMap_cons_some hgp]
      have : e.1 = p := hg p e hgp
      simpa [this] using ih.cons₂ p

theorem childErr_none_iff
    (recFn₁ recFn₂ : Path → Option Hash → Option Hash → Option Hash → MergeRes)
    (sp : Path) (bt st dt : Tree) (p : Path)
    (h : resAligned
      (recFn₁ (pathJoin sp p) (treeLookup bt p) (treeLookup st p) (treeLookup dt p))
      (recFn₂ (pathJoin sp p) (treeLookup bt p) (treeLookup st p) (treeLookup dt p))) :
    (childErr recFn₁ sp bt st dt p = none ↔ childErr recFn₂ sp bt st dt p = none) := by
  unfold childErr
  cases h₁ : recFn₁ (pathJoin sp p) (treeLookup bt p) (treeLookup st p) (treeLookup dt p) with
  | ok a =>
    cases h₂ : recFn₂ (pathJoin sp p) (treeLookup bt p) (treeLookup st p) (treeLookup dt p) with
    | ok b => simp
    | err e => rw [h₁, h₂] at h; exact absurd h (by simp [resAligned])
  | err e =>
    cases h₂ : recFn₂ (pathJoin sp p) (treeLookup bt p) (treeLookup st p) (treeLookup dt p) with
    | ok b => rw [h₁, h₂] at h; exact absurd h (by simp [resAligned])
    | err e2 => simp

theorem childEntry_aligned_eq
    (recFn₁ recFn₂ : Path → Option Hash → Option Hash → Option Hash → MergeRes)
    (sp : Path) (bt st dt : Tree) (p : Path)
    (h : resAligned
      (recFn₁ (pathJoin sp p) (treeLookup bt p) (treeLookup st p) (treeLookup dt p))
      (recFn₂ (pathJoin sp p) (treeLookup bt p) (treeLookup st p) (treeLookup dt p))) :
    childEntry recFn₁ sp bt st dt p = childEntry recFn₂ sp bt st dt p := by
  unfold childEntry
  cases h₁ : recFn₁ (pathJoin sp p) (treeLookup bt p) (treeLookup st p) (treeLookup dt p) with
  | ok a =>
    cases h₂ : recFn₂ (pathJoin sp p) (treeLookup bt p) (treeLookup st p) (treeLookup dt p) with
    | ok b =>
      rw [h₁, h₂] at h
      have hab : a = b := h
      subst hab
      rfl
    | err e => rw [h₁, h₂] at h; exact absurd h (by simp [resAligned])
  | err e =>
    cases h₂ : recFn₂ (pathJoin sp p) (treeLookup bt p) (treeLookup st p) (treeLookup dt p) with
    | ok b => rw [h₁, h₂] at h; exact absurd h (by simp [resAligned])
    | err e2 => rfl

/-- Two child loops over permuted, duplicate-free iteration lists with
pointwise-aligned recursive merges: the error accumulators are empty
together, and the merged trees serialize to identical bytes. -/
theorem mergeChildren_aligned
    (recFn₁ recFn₂ : Path → Option Hash → Option Hash → Option Hash → MergeRes)
    (sp : Path) (bt st dt : Tree) (l₁ l₂ : List Path)
    (hperm : List.Perm l₁ l₂) (hnd : l₁.Nodup)
    (hrec : ∀ p, resAligned
      (recFn₁ (pathJoin sp p) (treeLookup bt p) (treeLookup st p) (treeLookup dt p))
      (recFn₂ (pathJoin sp p) (treeLookup bt p) (treeLookup st p) (treeLookup dt p))) :
    ((mergeChildren recFn₁ sp bt st dt l₁).1 = [] ↔
      (mergeChildren recFn₂ sp bt st dt l₂).1 = []) ∧
    treeString (mergeChildren recFn₁ sp bt st dt l₁).2 =
      treeString (mergeChildren recFn₂ sp bt st dt l₂).2 := by
  constructor
  · rw [mergeChildren_fst, mergeChildren_fst]
    rw [List.filterMap_eq_nil_iff, List.filterMap_eq_nil_iff]
    constructor
    · intro hall p hp
      exact (childErr_none_iff recFn₁ recFn₂ sp bt st dt p (hrec p)).mp
        (hall p (hperm.mem_iff.mpr hp))
    · intro hall p hp
      exact (childErr_none_iff recFn₁ recFn₂ sp bt st dt p (hrec p)).mpr
        (hall p (hperm.mem_iff.mp hp))
  · rw [mergeChildren_snd, mergeChildren_snd]
    have hcongr : l₁.filterMap (childEntry recFn₁ sp bt st dt) =
        l₁.filterMap (childEntry recFn₂ sp bt st dt) :=
      List.filterMap_congr fun p _ => childEntry_aligned_eq recFn₁ recFn₂ sp bt st dt p (hrec p)
    have hp2 : List.Perm (l₁.filterMap (childEntry recFn₂ sp bt st dt))
        (l₂.filterMap (childEntry recFn₂ sp bt st dt)) :=
      hperm.filterMap _
    have hkeys : ((l₁.filterMap (childEntry recFn₁ sp bt st dt)).map Prod.fst).Nodup :=
      hnd.sublist (filterMap_key_sublist (childEntry recFn₁ sp bt st dt)
        (childEntry_key recFn₁ sp bt st dt) l₁)
    rw [hcongr] at hkeys ⊢
    exact treeString_perm _ _ hp2 hkeys

theorem resAligned_refl (x : MergeRes) : resAligned x x := by
  cases x <;> simp [resAligned]

theorem IsAncestor_update (env : MergeEnv) (o : List Path → List Path)
    (b : Option Hash) (h : Hash) :
    IsAncestor {env with iterOrder := o} b h = IsAncestor env b h := rfl

theorem baseFileRes_update (env : MergeEnv) (o : List Path → List Path)
    (b : Option Hash) :
    baseFileRes {env with iterOrder := o} b = baseFileRes env b := rfl

theorem baseTreeRes_update (env : MergeEnv) (o : List Path → List Path)
    (b : Option Hash) (bf : Option File) :
    baseTreeRes {env with iterOrder := o} b bf = baseTreeRes env b bf := rfl

/-- One directory-merge layer preserves alignment: with pointwise-aligned
recursive merges and two permutation-valid iteration orders, `mergeStep`
produces aligned results. -/
theorem mergeStep_aligned (env : MergeEnv) (o₁ o₂ : List Path → List Path)
    (hv₁ : ∀ l, List.Perm (o₁ l) l) (hv₂ : ∀ l, List.Perm (o₂ l) l)
    (recFn₁ recFn₂ : Path → Option Hash → Option Hash → Option Hash → MergeRes)
    (hrec : ∀ sp b s d, resAligned (recFn₁ sp b s d) (recFn₂ sp b s d))
    (sp : Path) (base src dest : Option Hash) (fkm : Bool) :
    resAligned (mergeStep {env with iterOrder := o₁} recFn₁ sp base src dest fkm)
               (mergeStep {env with iterOrder := o₂} recFn₂ sp base src dest fkm) := by
  unfold mergeStep
  by_cases h1 : src = dest
  · simp only [if_pos h1]
    exact resAligned_refl _
  simp only [if_neg h1]
  by_cases h2 : src = base
  · simp only [if_pos h2]
    exact resAligned_refl _
  simp only [if_neg h2]
  by_cases h3 : dest = base
  · simp only [if_pos h3]
    exact resAligned_refl _
  simp only [if_neg h3]
  cases src with
  | none => exact trivial
  | some sh =>
    cases dest with
    | none => exact trivial
    | some dh =>
      simp only [IsAncestor_update, baseFileRes_update, baseTreeRes_update]
      cases has : IsAncestor env base sh with
      | error e => exact trivial
      | ok b =>
        cases b with
        | false => exact trivial
        | true =>
          cases had : IsAncestor env base dh with
          | error e => exact trivial
          | ok b2 =>
            cases b2 with
            | false => exact trivial
            | true =>
              cases hrs : env.readSnapshot sh with
              | error e => exact trivial
              | ok srcFile =>
                cases hrd : env.readSnapshot dh with
                | error e => exact trivial
                | ok destFile =>
                  cases hbf : baseFileRes env base with
                  | error e => exact trivial
                  | ok baseFile =>
                    cases hlink : (srcFile.isLink || destFile.isLink) with
                    | true => simp only [hlink, if_pos rfl]; exact trivial
                    | false =>
                      simp only [hlink, Bool.false_eq_true, if_false]
                      cases hdir : (srcFile.isDir && destFile.isDir) with
                      | false =>
                        simp only [hdir, Bool.not_false, if_pos rfl]
                        exact resAligned_refl _
                      | true =>
                        simp only [hdir, Bool.not_true, Bool.false_eq_true, if_false]
                        cases hts : env.listDir sh srcFile with
                        | error e => exact trivial
                        | ok srcTree =>
                          cases htd : env.listDir dh destFile with
                          | error e => exact trivial
                          | ok destTree =>
                            cases hbt : baseTreeRes env base baseFile with
                            | error e => exact trivial
                            | ok baseTree =>
                              have hperm : List.Perm (o₁ (childUnion srcTree destTree))
                                  (o₂ (childUnion srcTree destTree)) :=
                                (hv₁ _).trans (hv₂ _).symm
                              have hnd : (o₁ (childUnion srcTree destTree)).Nodup :=
                                ((hv₁ _).nodup_iff).mpr (List.nodup_dedup _)
                              have key := mergeChildren_aligned recFn₁ recFn₂ sp
                                baseTree srcTree destTree
                                (o₁ (childUnion srcTree destTree))
                                (o₂ (childUnion srcTree destTree)) hperm hnd
                                (fun p => hrec _ _ _ _)
                              by_cases hmode : srcFile.mode ≠ destFile.mode ∧ fkm = false
                              · simp only [if_pos hmode]
                                have hb₁ : ((mergeChildren recFn₁ sp baseTree srcTree
                                    destTree (o₁ (childUnion srcTree destTree))).1 ++
                                      [modeMismatchMsg sp srcFile.mode destFile.mode]).isEmpty ≠
                                    true := by
                                  simp [List.isEmpty_iff]
                                have hb₂ : ((mergeChildren recFn₂ sp baseTree srcTree
                                    destTree (o₂ (childUnion srcTree destTree))).1 ++
                                      [modeMismatchMsg sp srcFile.mode destFile.mode]).isEmpty ≠
                                    true := by
                                  simp [List.isEmpty_iff]
                                simp only [if_neg hb₁, if_neg hb₂]
                                exact trivial
                              · simp only [if_neg hmode]
                                by_cases hq : (mergeChildren recFn₁ sp baseTree srcTree
                                    destTree (o₁ (childUnion srcTree destTree))).1 = []
                                · have hq' : (mergeChildren recFn₂ sp baseTree srcTree
                                      destTree (o₂ (childUnion srcTree destTree))).1 = [] :=
                                    key.1.mp hq
                                  rw [key.2, hq, hq']
                                  exact resAligned_refl _
                                · have hq' : ¬(mergeChildren recFn₂ sp baseTree srcTree
                                      destTree (o₂ (childUnion srcTree destTree))).1 = [] :=
                                    fun hh => hq (key.1.mpr hh)
                                  have hb₁ : ((mergeChildren recFn₁ sp baseTree srcTree
                                      destTree (o₁ (childUnion srcTree destTree))).1).isEmpty ≠
                                      true := by
                                    simp [List.isEmpty_iff, hq]
                                  have hb₂ : ((mergeChildren recFn₂ sp baseTree srcTree
                                      destTree (o₂ (childUnion srcTree destTree))).1).isEmpty ≠
                                      true := by
                                    simp [List.isEmpty_iff, hq']
                                  simp only [if_neg hb₁, if_neg hb₂]
                                  exact trivial

theorem mergeWithBase_iterOrder_aligned (env : MergeEnv)
    (o₁ o₂ : List Path → List Path)
    (hv₁ : ∀ l, List.Perm (o₁ l) l) (hv₂ : ∀ l, List.Perm (o₂ l) l) :
    ∀ (fuel : Nat) (sp : Path) (base src dest : Option Hash) (fkm : Bool),
      resAligned (mergeWithBase {env with iterOrder := o₁} fuel sp base src dest fkm)
                 (mergeWithBase {env with iterOrder := o₂} fuel sp base src dest fkm) := by
  intro fuel
  induction fuel with
  | zero => intro sp base src dest fkm; exact trivial
  | succ n ih =>
    intro sp base src dest fkm
    exact mergeStep_aligned env o₁ o₂ hv₁ hv₂
      (fun sp1 b s d => mergeWithBase {env with iterOrder := o₁} n sp1 b s d fkm)
      (fun sp1 b s d => mergeWithBase {env with iterOrder := o₂} n sp1 b s d fkm)
      (fun sp1 b s d => ih sp1 b s d fkm) sp base src dest fkm

/-- Claim C9 (amended): the directory-merge loop iterates the union of child
names in Go's unspecified map order.  Two runs over the same inputs whose
iteration orders are both permutations of the union nevertheless align: both
fail, or both succeed with the identical result hash — in particular the
serialized merged Tree is byte-identical, because the canonical Tree
serialization itself sorts entries.  The accumulated error message, however,
depends on the iteration order. -/
theorem c9_iteration_order (env : MergeEnv) (o₁ o₂ : List Path → List Path)
    (hv₁ : ∀ l, List.Perm (o₁ l) l) (hv₂ : ∀ l, List.Perm (o₂ l) l)
    (fuel : Nat) (sp : Path) (base src dest : Option Hash) (fkm : Bool) :
    resAligned (mergeWithBase {env with iterOrder := o₁} fuel sp base src dest fkm)
               (mergeWithBase {env with iterOrder := o₂} fuel sp base src dest fkm) :=
  mergeWithBase_iterOrder_aligned env o₁ o₂ hv₁ hv₂ fuel sp base src dest fkm

/-- Witness for C9: the concrete two-symlink-children merge, iterated
forwards and backwards, aligns (here: both runs fail). -/
theorem c9_witness :
    resAligned
      (mergeWithBase {c9CexEnv with iterOrder := fun l => l} 2 "/d" none
        (some ⟨"sha256", "s9"⟩) (some ⟨"sha256", "d9"⟩) false)
      (mergeWithBase {c9CexEnv with iterOrder := List.reverse} 2 "/d" none
        (some ⟨"sha256", "s9"⟩) (some ⟨"sha256", "d9"⟩) false) :=
  c9_iteration_order c9CexEnv (fun l => l) List.reverse
    (fun l => List.Perm.refl l) (fun l => List.reverse_perm l)
    2 "/d" none (some ⟨"sha256", "s9"⟩) (some ⟨"sha256", "d9"⟩) false

/-- Counterexample for C9 as stated: the iteration order is the Go map order,
not a sorted order — with two erroring children, iterating the union
forwards and backwards (both legitimate permutations of the union) yields
different accumulated error messages, so the joined error is not
byte-identical across runs. -/
theorem c9_counterexample :
    List.Perm ((fun (l : List Path) => l) ["a", "b"]) ["a", "b"] ∧
    List.Perm (List.reverse ["a", "b"] : List Path) ["a", "b"] ∧
    mergeWithBase {c9CexEnv with iterOrder := fun l => l} 2 "/d" none
        (some ⟨"sha256", "s9"⟩) (some ⟨"sha256", "d9"⟩) false ≠
      mergeWithBase {c9CexEnv with iterOrder := List.reverse} 2 "/d" none
        (some ⟨"sha256", "s9"⟩) (some ⟨"sha256", "d9"⟩) false := by
  refine ⟨List.Perm.refl _, List.reverse_perm _, ?_⟩
  decide

end RVCS
